import Mathlib

/-!
Verification of the live-refresh rendering and polling core of git-pr-rust.

The definitions below are a shallow embedding of the repository's Rust
sources:
  * `src/prinfo/models.rs` — the PR status data model (`PrInfo`,
    `StatusCheck`, the check state enums) and the derived check
    properties (`is_complete`, `short_status_str`).
  * `src/prinfo/prinfo.rs` — `PrInfo::sha`, `PrInfo::is_complete`,
    `PrInfo::get` and the interval-gated `PrInfo::update`.
  * `src/cli.rs` — the `Pb` row descriptors, the row builder
    `App::get_progress_bars`, the row registry `App::pb` backed by a
    key-to-progress-bar map plus the `MultiProgress` display order, and
    the polling loop `App::run_loop`.

Modelling conventions:
  * Rust panics (`unwrap`, `expect`, `panic!`) are modelled as
    `Except.error` with the panic message.
  * `std::time::SystemTime` is modelled as a natural number of
    milliseconds since an arbitrary epoch; `Duration::as_secs` is then
    truncating division by 1000, exactly as in the source.
  * The external `gh` process invocation inside `PrInfo::get` is
    modelled by a parameter `fetched : Option PrInfo`: `none` covers
    both an empty stdout and a JSON parse failure (the two `None` paths
    of the source), `some` is the parsed record.
  * ANSI colouring from the `colored` crate (`.magenta()`, `.green()`,
    ...) wraps escape sequences around text; the escapes are
    presentation-only and are elided, keeping the underlying text.
  * Literal braces of `indicatif` template strings are written with
    their hex escapes.
-/

namespace GitPr

/-- `std::time::SystemTime`, as milliseconds since an arbitrary epoch. -/
abbrev Time := Nat

/-- models.rs `CheckStatusState` (the GitHub check-run status enum). -/
inductive CheckStatusState where
  | Completed
  | InProgress
  | Pending
  | Queued
  | Requested
  | Waiting
deriving DecidableEq, Repr

/-- models.rs `CheckConclusionState` (the GitHub check-run conclusion enum). -/
inductive CheckConclusionState where
  | ActionRequired
  | Cancelled
  | Failure
  | Neutral
  | Skipped
  | Stale
  | StartupFailure
  | Success
  | TimedOut
deriving DecidableEq, Repr

/-- models.rs `StatusContextState` (the GitHub commit-status state enum). -/
inductive StatusContextState where
  | Error
  | Expected
  | Failure
  | Pending
  | Success
deriving DecidableEq, Repr

/-- models.rs `User`. -/
structure User where
  login : String
  email : Option String
  id : Option String
  name : Option String
deriving DecidableEq, Repr

/-- models.rs `Commit`. -/
structure Commit where
  authoredDate : String
  authors : List User
  committedDate : String
  messageBody : String
  messageHeadline : String
  oid : String
deriving DecidableEq, Repr

/-- models.rs `File`. -/
structure File where
  path : String
  additions : Nat
  deletions : Nat
deriving DecidableEq, Repr

/-- models.rs `Repo`. -/
structure Repo where
  id : String
  name : String
deriving DecidableEq, Repr

/-- models.rs `Node`. -/
structure Node where
  oid : String
deriving DecidableEq, Repr

/-- models.rs `Review`. -/
structure Review where
  id : String
  author : User
  authorAssociation : String
  body : String
  submittedAt : String
  includesCreatedEdit : Bool
  reactionGroups : List String
  state : String
deriving DecidableEq, Repr

/-- models.rs `StatusCheck`: the `__typename`-tagged union of a check
run and a status context. Field order follows the source. -/
inductive StatusCheck where
  | CheckRun
      (completedAt : String)
      (conclusion : Option CheckConclusionState)
      (detailsUrl : String)
      (name : String)
      (startedAt : String)
      (status : CheckStatusState)
      (workflowName : String)
  | StatusContext
      (context : String)
      (startedAt : String)
      (state : StatusContextState)
      (targetUrl : String)
deriving DecidableEq, Repr

/-- models.rs `Label`. -/
structure Label where
  id : String
  name : String
  description : String
  color : String
deriving DecidableEq, Repr

/-- models.rs `Comment`. -/
structure Comment where
  id : String
  author : User
  authorAssociation : String
  body : String
  createdAt : String
  includesCreatedEdit : Bool
  isMinimized : Bool
  minimizedReason : String
  reactionGroups : List String
  url : String
  viewerDidAuthor : Bool
deriving DecidableEq, Repr

/-- models.rs `PrInfo`: one snapshot of PR status. `__createdAt` is the
serde-skipped local fetch timestamp that `PrInfo::get` stamps with
`SystemTime::now()` (`None` on a record that never went through `get`). -/
structure PrInfo where
  __createdAt : Option Time
  additions : Nat
  assignees : List String
  author : User
  baseRefName : String
  body : String
  changedFiles : Nat
  closed : Bool
  closedAt : Option String
  comments : List Comment
  commits : List Commit
  createdAt : String
  deletions : Nat
  files : List File
  headRefName : String
  headRefOid : String
  headRepository : Repo
  headRepositoryOwner : User
  id : String
  isCrossRepository : Bool
  isDraft : Bool
  labels : List Label
  latestReviews : List Review
  maintainerCanModify : Bool
  mergeCommit : Option Node
  mergeStateStatus : String
  mergeable : String
  mergedAt : Option String
  mergedBy : Option User
  milestone : Option String
  number : Nat
  potentialMergeCommit : Option Node
  projectCards : List String
  reactionGroups : List String
  reviewDecision : String
  reviewRequests : List String
  reviews : List Review
  state : String
  statusCheckRollup : List StatusCheck
  title : String
  updatedAt : String
  url : String
deriving DecidableEq, Repr

/-- models.rs `CheckStatusState::is_complete`. -/
def CheckStatusState.is_complete : CheckStatusState → Bool
  | CheckStatusState.Completed => true
  | _ => false

/-- models.rs `StatusContextState::is_complete`. -/
def StatusContextState.is_complete : StatusContextState → Bool
  | StatusContextState.Success => true
  | StatusContextState.Failure => true
  | StatusContextState.Error => true
  | _ => false

/-- models.rs `StatusCheck::name`: the run name, or the context name. -/
def StatusCheck.name : StatusCheck → String
  | StatusCheck.CheckRun _ _ _ n _ _ _ => n
  | StatusCheck.StatusContext c _ _ _ => c

/-- models.rs `StatusCheck::is_complete`: dispatch on the variant. -/
def StatusCheck.is_complete : StatusCheck → Bool
  | StatusCheck.CheckRun _ _ _ _ _ status _ => status.is_complete
  | StatusCheck.StatusContext _ _ state _ => state.is_complete

/-- The `panic!("unexpected status context state")` arms of
`short_status_str`; unreachable because the early return fires first on
every state those arms match. -/
def panicUnexpectedState : String := "panic: unexpected status context state"

/-- models.rs `StatusCheck::short_status_str`: the 4-character glyph. -/
def StatusCheck.short_status_str (sc : StatusCheck) : String :=
  if !sc.is_complete then " .. "
  else
    match sc with
    | StatusCheck.CheckRun _ conclusion _ _ _ _ _ =>
      match conclusion with
      | none => " .. "
      | some c =>
        match c with
        | CheckConclusionState.ActionRequired => "Fail"
        | CheckConclusionState.Cancelled => "Pass"
        | CheckConclusionState.Failure => "Fail"
        | CheckConclusionState.Neutral => "Pass"
        | CheckConclusionState.Skipped => "Skip"
        | CheckConclusionState.Stale => "Fail"
        | CheckConclusionState.StartupFailure => "Fail"
        | CheckConclusionState.Success => " OK "
        | CheckConclusionState.TimedOut => "Fail"
    | StatusCheck.StatusContext _ _ state _ =>
      match state with
      | StatusContextState.Error => "Fail"
      | StatusContextState.Failure => "Fail"
      | StatusContextState.Success => "Pass"
      -- source: `_ => panic!(...)`; these two states are not complete,
      -- so the early `" .. "` return above makes the arm unreachable
      | StatusContextState.Expected => panicUnexpectedState
      | StatusContextState.Pending => panicUnexpectedState

/-- models.rs `StatusCheck::short_status_string_with_color`: the glyph
wrapped in an ANSI colour (green, white, red, yellow); the escape
sequences are elided, keeping the text. -/
def StatusCheck.short_status_string_with_color (sc : StatusCheck) : String :=
  let status := sc.short_status_str
  match status with
  | " OK " => status -- .green()
  | "Pass" => status -- .white()
  | "Fail" => status -- .red()
  | "Skip" => status -- .yellow()
  | _ => status -- .white()

/-- The panic message of `Option::unwrap` on `None`. -/
def panicUnwrapNone : String := "panic: called Option::unwrap() on a None value"

/-- prinfo.rs `PrInfo::sha`:
`self.commits.last().cloned().unwrap().oid` — the `unwrap` panics when
the commits list is empty. -/
def PrInfo.sha (p : PrInfo) : Except String String :=
  match p.commits.getLast? with
  | some c => Except.ok c.oid
  | none => Except.error panicUnwrapNone

/-- prinfo.rs `PrInfo::is_complete`:
`self.statusCheckRollup.iter().all(|s| s.is_complete())`. -/
def PrInfo.is_complete (p : PrInfo) : Bool :=
  p.statusCheckRollup.all (fun s => s.is_complete)

/-- prinfo.rs `PrInfo::get`: runs `gh pr list --json ... -H branch` and
parses the output. `fetched` stands for that external result (`none` for
an empty stdout or a parse error); on success `get` stamps
`__createdAt` with `SystemTime::now()`, here `now`. -/
def PrInfo.get (now : Time) (fetched : Option PrInfo) : Option PrInfo :=
  fetched.map fun p => { p with __createdAt := some now }

/-- The panic message of `SystemTime::duration_since` on a later argument. -/
def panicDurationSince : String := "panic: SystemTimeError (second time is later)"

/-- `now.duration_since(earlier).unwrap().as_secs()`: whole elapsed
seconds; errors (the source unwraps a `SystemTimeError`) when `earlier`
is in the future. -/
def durationSinceSecs (now earlier : Time) : Except String Nat :=
  if now < earlier then Except.error panicDurationSince
  else Except.ok ((now - earlier) / 1000)

/-- The panic message of `expect("must have new info")` in `PrInfo::update`. -/
def panicMustHaveNewInfo : String := "panic: must have new info"

/-- prinfo.rs `PrInfo::update`: if at least 15 whole seconds elapsed
since `__createdAt`, re-fetch via `PrInfo::get` (the `expect` panics
when the fetch yields nothing) and replace the record wholesale;
otherwise keep the cached record.  `now` is `SystemTime::now()` and
`fetched` the external result the re-fetch would parse. -/
def PrInfo.update (self : PrInfo) (now : Time) (fetched : Option PrInfo) :
    Except String PrInfo :=
  match self.__createdAt with
  | none => Except.error panicUnwrapNone -- self.__createdAt.unwrap()
  | some created =>
    match durationSinceSecs now created with
    | Except.error e => Except.error e
    | Except.ok secs =>
      if secs ≥ 15 then
        match PrInfo.get now fetched with
        | none => Except.error panicMustHaveNewInfo
        | some p => Except.ok p
      else
        Except.ok self

/-! ### cli.rs: row descriptors (`Pb`) and their builders

The Rust `with_prefix` / `set_prefix` pair is rendered `with_prefixText`
/ the `prefixText` field here; everything else keeps its source name. -/

/-- cli.rs `Pb`: one ephemeral row descriptor, rebuilt every tick. -/
structure Pb where
  key : String := ""
  prefixText : String := ""
  message : String := ""
  template : String := ""
  tick_chars : String := ""
  indent : Nat := 0
deriving DecidableEq, Repr, Inhabited

/-- cli.rs `Pb::new`. -/
def Pb.new (key : String) : Pb := { key := key }

/-- cli.rs `Pb::with_prefix`. -/
def Pb.with_prefixText (pb : Pb) (p : String) : Pb := { pb with prefixText := p }

/-- cli.rs `Pb::with_message`. -/
def Pb.with_message (pb : Pb) (m : String) : Pb := { pb with message := m }

/-- cli.rs `Pb::with_template`. -/
def Pb.with_template (pb : Pb) (t : String) : Pb := { pb with template := t }

/-- cli.rs `Pb::with_tick_chars`. -/
def Pb.with_tick_chars (pb : Pb) (t : String) : Pb := { pb with tick_chars := t }

/-- cli.rs `Pb::with_indent`. -/
def Pb.with_indent (pb : Pb) (i : Nat) : Pb := { pb with indent := i }

/-- cli.rs `Pb::new_with_pkey`. -/
def Pb.new_with_pkey (key : String) : Pb := (Pb.new key).with_prefixText key

/-- cli.rs `Pb::new_with_pkey_and_message`. -/
def Pb.new_with_pkey_and_message (key message : String) : Pb :=
  ((Pb.new key).with_prefixText key).with_message message

/-- cli.rs `Pb::as_header`: template `"====> {prefix:.white.bold}{msg:.white.bold}"`
(the `"====>"` is magenta; colouring elided). -/
def Pb.as_header (pb : Pb) : Pb :=
  pb.with_template "====> \x7bprefix:.white.bold\x7d\x7bmsg:.white.bold\x7d"

/-- cli.rs `Pb::as_section`: template `"----> {prefix:.white.bold}{msg:.white.bold}"`
(the `"---->"` is magenta; colouring elided). -/
def Pb.as_section (pb : Pb) : Pb :=
  pb.with_template "----> \x7bprefix:.white.bold\x7d\x7bmsg:.white.bold\x7d"

/-- cli.rs `Pb::new_header`. -/
def Pb.new_header (key : String) : Pb := (Pb.new_with_pkey key).as_header

/-- cli.rs `Pb::new_section`. -/
def Pb.new_section (key : String) : Pb := (Pb.new_with_pkey key).as_section

/-! ### cli.rs: the row builder `App::get_progress_bars` -/

/-- The `longest_file` computation of `get_progress_bars`:
`files.iter().max_by(|a, b| a.path.len().cmp(&b.path.len())).unwrap().path.len()`.
On the non-empty lists the source guards for, the fold below equals that
maximum path length. -/
def longestFileLen (files : List File) : Nat :=
  files.foldl (fun m f => max m f.path.length) 0

/-- cli.rs `App::get_progress_bars`: the ordered row descriptors built
from one `PrInfo` snapshot.  `pr_info.sha()` is evaluated while the
details rows are built, so an empty commits list makes the whole builder
panic before anything is handed to the registry; the panic is hoisted to
the front as the `Except` bind.  Colouring is elided and template braces
are hex-escaped. -/
def App.get_progress_bars (pr_info : PrInfo) : Except String (List Pb) := do
  let sha ← pr_info.sha
  let headerRows : List Pb :=
    [ (Pb.new_header "header").with_prefixText
        (s!"#{pr_info.number} - {pr_info.title}"),
      ((Pb.new_with_pkey_and_message "url" pr_info.url).with_template
        "> \x7bmsg\x7d").with_indent 4,
      Pb.new_section "body",
      (Pb.new "_body").with_message pr_info.body ]
  let fileRows : List Pb :=
    if pr_info.files.isEmpty then []
    else
      Pb.new_section "files" ::
        pr_info.files.map (fun f =>
          (Pb.new_with_pkey_and_message f.path
              (s!"{f.additions}+{f.deletions}-")).with_template
            ("  --> \x7bprefix:" ++ toString (longestFileLen pr_info.files)
              ++ "\x7d | \x7bmsg\x7d"))
  let detailRows : List Pb :=
    [ Pb.new_section "details",
      Pb.new_with_pkey_and_message "state" pr_info.state,
      Pb.new_with_pkey_and_message "author" pr_info.author.login,
      Pb.new_with_pkey_and_message "createdAt" pr_info.createdAt,
      Pb.new_with_pkey_and_message "updatedAt" pr_info.updatedAt,
      -- the source lists the "state" row a second time here
      Pb.new_with_pkey_and_message "state" pr_info.state,
      Pb.new_with_pkey_and_message "sha" sha,
      Pb.new_with_pkey_and_message "url" pr_info.url ]
  let checkRows : List Pb :=
    if pr_info.statusCheckRollup.isEmpty then []
    else
      Pb.new_section "checks" ::
        pr_info.statusCheckRollup.map (fun sc =>
          let spinner := if sc.is_complete then " " else " \x7bspinner\x7d "
          (Pb.new_with_pkey_and_message sc.name
              (s!"[{sc.short_status_string_with_color}]")).with_template
            ("\x7bmsg\x7d" ++ spinner ++ "\x7bprefix:.bold.dim\x7d"))
  return headerRows ++ fileRows ++ detailRows ++ checkRows

/-! ### cli.rs: the row registry `App::pb` -/

/-- The mutable state of one `indicatif::ProgressBar`: the parts `App::pb`
sets (message, prefix, style template, tick characters). -/
structure RowState where
  message : String := ""
  prefixText : String := ""
  template : String := ""
  tick_chars : String := ""
deriving DecidableEq, Repr, Inhabited

/-- The registry: the `progress_bars: HashMap<String, ProgressBar>` map
(as an association list keyed by row key) plus the `MultiProgress`
display order, which `mp.add` appends to exactly when a key is first
inserted into the map. -/
structure Registry where
  order : List String := []
  rows : List (String × RowState) := []
deriving DecidableEq, Repr, Inhabited

/-- The template `App::pb` installs, from the
`match [!template.is_empty(), !prefix.is_empty()]` of the source, with
the indent prepended when positive. -/
def pbTemplate (args : Pb) : String :=
  let t :=
    if !args.template.isEmpty then args.template
    else if !args.prefixText.isEmpty then
      "\x7bprefix:10.white\x7d --> \x7bwide_msg\x7d"
    else "\x7bwide_msg\x7d"
  if args.indent > 0 then String.mk (List.replicate args.indent ' ') ++ t
  else t

/-- The tick characters `App::pb` installs (the spinner glyph cycle when
the descriptor sets none). -/
def pbTickChars (args : Pb) : String :=
  if args.tick_chars.isEmpty then "⣾⣽⣻⢿⡿⣟⣯⣷" else args.tick_chars

/-- The in-place update `App::pb` performs on the row for `args.key`:
`set_message` / `set_prefix` only on non-empty arguments, `set_style`
always. -/
def applyPbArgs (row : RowState) (args : Pb) : RowState :=
  let row := if !args.message.isEmpty then { row with message := args.message }
             else row
  let row := if !args.prefixText.isEmpty then
               { row with prefixText := args.prefixText }
             else row
  { row with template := pbTemplate args, tick_chars := pbTickChars args }

/-- cli.rs `App::pb`: create the row on first appearance of the key
(appending it to the `MultiProgress` display order), then update the
row for the key in place. -/
def App.pb (reg : Registry) (args : Pb) : Registry :=
  let reg :=
    if (reg.rows.lookup args.key).isSome then reg
    else { order := reg.order ++ [args.key],
           rows := reg.rows ++ [(args.key, {})] }
  { reg with
    rows := reg.rows.map (fun kv =>
      if kv.1 = args.key then (kv.1, applyPbArgs kv.2 args) else kv) }

/-- One frame's registry effect: `pb_keys.iter().map(|pb_args| self.pb(pb_args))`
folded over the registry. -/
def App.render (reg : Registry) (pbs : List Pb) : Registry :=
  pbs.foldl App.pb reg

/-! ### cli.rs: the polling loop `App::run_loop`

The loop shares `pr_info` behind a mutex with the spawned refreshes;
`flags` below is the per-tick value the loop reads from
`pr_info.lock().unwrap().is_complete()`.  Each iteration first tests
completeness (breaking out of the loop when it holds), then bumps every
row's progress bar (`inc(1)`, the in-loop render), then spawns a
background `update`, then sleeps 75 ms; after the loop one final frame
is rendered with `finish()`.  A run whose flag sequence never turns
true never terminates — `none` below. -/

/-- The observable steps of one `run_loop` execution. -/
inductive LoopEvent where
  | checkComplete (b : Bool)
  | renderTick
  | spawnUpdate
  | sleepTick
  | renderFinal
deriving DecidableEq, Repr

/-- cli.rs `App::run_loop` as the event trace it produces, driven by the
per-tick completeness values `flags`; `none` when `flags` is exhausted
with the record never complete (the loop would still be running). -/
def App.run_loop : List Bool → Option (List LoopEvent)
  | [] => none
  | c :: rest =>
    if c then some [LoopEvent.checkComplete true, LoopEvent.renderFinal]
    else
      (App.run_loop rest).map (fun evs =>
        LoopEvent.checkComplete false :: LoopEvent.renderTick ::
          LoopEvent.spawnUpdate :: LoopEvent.sleepTick :: evs)

/-! ### Concrete sample values, used by witnesses and counterexamples -/

/-- A concrete `User`. -/
def sampleUser : User :=
  { login := "octocat", email := none, id := none, name := none }

/-- A concrete `Commit` with oid `"abc123"`. -/
def sampleCommit : Commit :=
  { authoredDate := "2024-01-01", authors := [sampleUser],
    committedDate := "2024-01-01", messageBody := "", messageHeadline := "fix",
    oid := "abc123" }

/-- A concrete terminal check-run named `"ci"`. -/
def sampleCheck : StatusCheck :=
  StatusCheck.CheckRun "2024-01-02" (some CheckConclusionState.Success)
    "https://ci.example" "ci" "2024-01-01" CheckStatusState.Completed "CI"

/-- A concrete `PrInfo` snapshot with one commit, one changed file, one
terminal check and fetch timestamp 0. -/
def samplePrInfo : PrInfo :=
  { __createdAt := some 0, additions := 3, assignees := [], author := sampleUser,
    baseRefName := "main", body := "body text", changedFiles := 1,
    closed := false, closedAt := none, comments := [],
    commits := [sampleCommit], createdAt := "2024-01-01", deletions := 1,
    files := [{ path := "a.go", additions := 3, deletions := 1 }],
    headRefName := "feature", headRefOid := "abc123",
    headRepository := { id := "R_1", name := "repo" },
    headRepositoryOwner := sampleUser, id := "PR_1", isCrossRepository := false,
    isDraft := false, labels := [], latestReviews := [],
    maintainerCanModify := false, mergeCommit := none, mergeStateStatus := "",
    mergeable := "MERGEABLE", mergedAt := none, mergedBy := none,
    milestone := none, number := 7, potentialMergeCommit := none,
    projectCards := [], reactionGroups := [], reviewDecision := "",
    reviewRequests := [], reviews := [], state := "OPEN",
    statusCheckRollup := [sampleCheck], title := "Add feature",
    updatedAt := "2024-01-02", url := "https://example.com/pr/7" }

/-! ### Shared helper lemmas -/

/-- What `PrInfo::update` computes once the fetch timestamp is known and
the clock did not go backwards: fetch-and-replace when at least 15 whole
seconds elapsed, keep the cached record otherwise. -/
theorem update_eq_of_createdAt (p : PrInfo) (now T : Nat) (fetched : Option PrInfo)
    (hT : p.__createdAt = some T) (hle : T ≤ now) :
    p.update now fetched =
      if 15 ≤ (now - T) / 1000 then
        match PrInfo.get now fetched with
        | none => Except.error panicMustHaveNewInfo
        | some q => Except.ok q
      else Except.ok p := by
  unfold PrInfo.update durationSinceSecs
  rw [hT]
  dsimp only
  rw [if_neg (not_lt.mpr hle)]

/-! ### C1: the completion predicate -/

/-- C1: a record is complete iff its statusCheckRollup is non-empty and
every check in it is terminal, or the rollup is empty — the source's
`iter().all(...)` is vacuously true on an empty list, the documented
recommended policy ("empty checks ⇒ complete"). -/
theorem is_complete_policy (p : PrInfo) :
    p.is_complete = true ↔
      ((p.statusCheckRollup ≠ [] ∧
          ∀ c ∈ p.statusCheckRollup, c.is_complete = true) ∨
        p.statusCheckRollup = []) := by
  unfold PrInfo.is_complete
  rw [List.all_eq_true]
  constructor
  · intro h
    rcases eq_or_ne p.statusCheckRollup [] with he | he
    · exact Or.inr he
    · exact Or.inl ⟨he, h⟩
  · rintro (⟨_, h⟩ | he)
    · exact h
    · intro c hc
      rw [he] at hc
      cases hc

/-! ### C7: terminal checks -/

/-- C7: a `CheckRun` is terminal iff its run status is `Completed`; a
`StatusContext` is terminal iff its state is `Success`, `Failure` or
`Error`. -/
theorem check_terminal_iff (sc : StatusCheck) :
    sc.is_complete = true ↔
      (match sc with
       | StatusCheck.CheckRun _ _ _ _ _ status _ =>
           status = CheckStatusState.Completed
       | StatusCheck.StatusContext _ _ state _ =>
           state = StatusContextState.Success ∨
             state = StatusContextState.Failure ∨
             state = StatusContextState.Error) := by
  cases sc with
  | CheckRun a conclusion c d e status f =>
    cases status <;>
      simp [StatusCheck.is_complete, CheckStatusState.is_complete]
  | StatusContext a b state c =>
    cases state <;>
      simp [StatusCheck.is_complete, StatusContextState.is_complete]

/-! ### C10: completed run without a conclusion -/

/-- C10: a `CheckRun` whose status is `Completed` but whose conclusion
is absent (the `error_as_none` deserializer turns an unparseable
conclusion into `None`) gets the short label `" .. "` — the same glyph
every non-terminal check gets — yet still counts as terminal, so a
record whose rollup is exactly that check is complete and the run can
stop while the row shows the pending glyph. -/
theorem completed_run_no_conclusion_pending_glyph :
    (∀ completedAt detailsUrl nm startedAt workflowName : String,
      (StatusCheck.CheckRun completedAt none detailsUrl nm startedAt
          CheckStatusState.Completed workflowName).short_status_str = " .. " ∧
      (StatusCheck.CheckRun completedAt none detailsUrl nm startedAt
          CheckStatusState.Completed workflowName).is_complete = true ∧
      ∀ p : PrInfo,
        ({ p with statusCheckRollup :=
            [StatusCheck.CheckRun completedAt none detailsUrl nm startedAt
              CheckStatusState.Completed workflowName] } : PrInfo).is_complete
          = true) ∧
    (∀ sc : StatusCheck, sc.is_complete = false →
      sc.short_status_str = " .. ") := by
  constructor
  · intro completedAt detailsUrl nm startedAt workflowName
    exact ⟨rfl, rfl, fun p => rfl⟩
  · intro sc h
    unfold StatusCheck.short_status_str
    rw [h]
    rfl

/-- C10 witness: the concrete completed-without-conclusion check is
terminal and labelled `" .. "`, and a concrete pending check gets the
same glyph. -/
theorem completed_run_no_conclusion_pending_glyph_witness :
    ((StatusCheck.CheckRun "t" none "u" "ci" "t0"
        CheckStatusState.Completed "CI").short_status_str = " .. " ∧
      (StatusCheck.CheckRun "t" none "u" "ci" "t0"
        CheckStatusState.Completed "CI").is_complete = true) ∧
    (StatusCheck.StatusContext "ctx" "t0" StatusContextState.Pending
        "u").short_status_str = " .. " := by
  have h := completed_run_no_conclusion_pending_glyph
  have h1 := h.1 "t" "u" "ci" "t0" "CI"
  exact ⟨⟨h1.1, h1.2.1⟩, h.2 _ rfl⟩

/-! ### C5: the sha operation -/

/-- C5 counterexample: on a record with no commits, `sha` does not
return the empty string — it panics (`Option::unwrap` on `None`), so
the claim's totality and empty-string fallback are both false. -/
theorem sha_empty_commits_panics_cex :
    ({ samplePrInfo with commits := [] } : PrInfo).sha
        = Except.error panicUnwrapNone ∧
      ({ samplePrInfo with commits := [] } : PrInfo).sha ≠ Except.ok "" := by
  refine ⟨rfl, ?_⟩
  intro h
  rw [show ({ samplePrInfo with commits := [] } : PrInfo).sha
      = Except.error panicUnwrapNone from rfl] at h
  simp at h

/-- C5 amended: `sha` returns the oid of the last commit when the
commits list is non-empty, and panics (`unwrap` on `None`) when it is
empty; it is not total. -/
theorem sha_last_commit (p : PrInfo) :
    (∀ c, p.commits.getLast? = some c → p.sha = Except.ok c.oid) ∧
    (p.commits = [] → p.sha = Except.error panicUnwrapNone) := by
  constructor
  · intro c hc
    unfold PrInfo.sha
    rw [hc]
  · intro hc
    unfold PrInfo.sha
    rw [hc]
    rfl

/-- C5 witness: on the sample record the last commit's oid comes back. -/
theorem sha_last_commit_witness : samplePrInfo.sha = Except.ok "abc123" :=
  (sha_last_commit samplePrInfo).1 sampleCommit rfl

/-! ### C2: refresh failure handling -/

/-- C2 counterexample: with a refresh due (15 s after the fetch
timestamp) and the external fetch returning no usable record,
`update` does not retain the previous record — it panics through
`expect("must have new info")`, aborting the updating task (and, run in
the spawned task while holding the record's mutex, poisoning the lock
the render loop unwraps on the next tick). -/
theorem update_failed_fetch_panics_cex :
    samplePrInfo.update 15000 none = Except.error panicMustHaveNewInfo ∧
      samplePrInfo.update 15000 none ≠ Except.ok samplePrInfo := by
  refine ⟨rfl, ?_⟩
  intro h
  rw [show samplePrInfo.update 15000 none
      = Except.error panicMustHaveNewInfo from rfl] at h
  simp at h

/-- C2 amended: for every record whose refresh is due, a failed
external fetch makes `update` panic (`must have new info`) instead of
retaining the previous record and retrying later. -/
theorem update_failed_fetch_panics (p : PrInfo) (now T : Nat)
    (hT : p.__createdAt = some T) (hle : T ≤ now) (hdue : 15000 ≤ now - T) :
    p.update now none = Except.error panicMustHaveNewInfo := by
  rw [update_eq_of_createdAt p now T none hT hle,
    if_pos (by omega : 15 ≤ (now - T) / 1000)]
  rfl

/-- C2 witness: the panic at a concrete due refresh with a failed fetch. -/
theorem update_failed_fetch_panics_witness :
    samplePrInfo.update 20000 none = Except.error panicMustHaveNewInfo :=
  update_failed_fetch_panics samplePrInfo 20000 0 rfl (by omega) (by omega)

/-! ### C3: refresh gating and timestamp monotonicity -/

/-- C3: calling `update` strictly less than the 15-second minimum
interval after the fetch timestamp `T` consults no external fetch and
returns the record unchanged (the result is `ok self` for every value
of the would-be fetch); at or after `T + 15000` ms it does consult the
fetch; and any record `update` returns carries a fetch timestamp no
smaller than `T`, so `__createdAt` is monotonically non-decreasing
across updates. -/
theorem update_refresh_gating (p : PrInfo) (now T : Nat)
    (fetched : Option PrInfo) (hT : p.__createdAt = some T) (hle : T ≤ now) :
    (now - T < 15000 → p.update now fetched = Except.ok p) ∧
    (15000 ≤ now - T →
      p.update now fetched =
        match PrInfo.get now fetched with
        | none => Except.error panicMustHaveNewInfo
        | some q => Except.ok q) ∧
    (∀ q T2, p.update now fetched = Except.ok q →
      q.__createdAt = some T2 → T ≤ T2) := by
  rw [update_eq_of_createdAt p now T fetched hT hle]
  refine ⟨?_, ?_, ?_⟩
  · intro h
    rw [if_neg (by omega : ¬ 15 ≤ (now - T) / 1000)]
  · intro h
    rw [if_pos (by omega : 15 ≤ (now - T) / 1000)]
  · intro q T2 hq hT2
    by_cases h15 : 15 ≤ (now - T) / 1000
    · rw [if_pos h15] at hq
      cases fetched with
      | none =>
        exact Except.noConfusion
          (show Except.error panicMustHaveNewInfo = Except.ok q from hq)
      | some f =>
        have hq2 : ({ f with __createdAt := some now } : PrInfo) = q :=
          Except.ok.inj hq
        rw [← hq2] at hT2
        have hnow : some now = some T2 := hT2
        have := Option.some.inj hnow
        omega
    · rw [if_neg h15] at hq
      have hpq : p = q := Except.ok.inj hq
      rw [← hpq, hT] at hT2
      have := Option.some.inj hT2
      omega

/-- C3 witness: at 1 s after the fetch timestamp the sample record is
returned unchanged; at exactly 15 s the fetch result replaces it, with
the new timestamp stamped. -/
theorem update_refresh_gating_witness :
    samplePrInfo.update 1000 (some samplePrInfo) = Except.ok samplePrInfo ∧
    samplePrInfo.update 15000 (some samplePrInfo) =
      Except.ok { samplePrInfo with __createdAt := some 15000 } := by
  have h1 := update_refresh_gating samplePrInfo 1000 0 (some samplePrInfo)
    rfl (by omega)
  have h2 := update_refresh_gating samplePrInfo 15000 0 (some samplePrInfo)
    rfl (by omega)
  exact ⟨h1.1 (by omega), (h2.2.1 (by omega)).trans rfl⟩

/-! ### C6: the Details section and section suppression -/

/-- C6 counterexample: on the sample record the row builder emits the
key `"state"` twice (the source lists the `"state"` row again between
`"updatedAt"` and `"sha"`), so the Details section is not the six
fixed-key rows each appearing once. -/
theorem details_state_key_twice_cex :
    (App.get_progress_bars samplePrInfo).map
        (fun pbs => (pbs.map Pb.key).count "state") = Except.ok 2 := by
  rfl

/-- C6 amended: the row builder emits the keys header, url, body,
_body; then — only when `files` is non-empty — the files section header
and one key per file path; then the Details rows with fixed keys
`state, author, createdAt, updatedAt, state, sha, url` in that order
(the `state` key appears twice; the keyed registry collapses the
duplicate into one row); then — only when `statusCheckRollup` is
non-empty — the checks section header and one key per check name.  An
empty files or checks list suppresses the section header row and all
its member rows. -/
theorem get_progress_bars_keys (p : PrInfo) (s : String)
    (hs : p.sha = Except.ok s) :
    ∃ pbs, App.get_progress_bars p = Except.ok pbs ∧
      pbs.map Pb.key =
        ["header", "url", "body", "_body"]
        ++ (if p.files.isEmpty then [] else "files" :: p.files.map File.path)
        ++ ["details", "state", "author", "createdAt", "updatedAt",
            "state", "sha", "url"]
        ++ (if p.statusCheckRollup.isEmpty then []
            else "checks" :: p.statusCheckRollup.map StatusCheck.name) := by
  unfold App.get_progress_bars
  rw [hs]
  refine ⟨_, rfl, ?_⟩
  by_cases hf : p.files.isEmpty <;> by_cases hc : p.statusCheckRollup.isEmpty <;>
    simp [hf, hc, List.map_append, List.map_map, Function.comp,
      Pb.new_header, Pb.new_section, Pb.as_header, Pb.as_section,
      Pb.new_with_pkey_and_message, Pb.new_with_pkey, Pb.new,
      Pb.with_prefixText, Pb.with_message, Pb.with_template, Pb.with_indent]
  all_goals rfl

/-- C6 witness: the full key sequence on the sample record, files and
checks sections included. -/
theorem get_progress_bars_keys_witness :
    (App.get_progress_bars samplePrInfo).map (fun pbs => pbs.map Pb.key) =
      Except.ok ["header", "url", "body", "_body", "files", "a.go",
        "details", "state", "author", "createdAt", "updatedAt", "state",
        "sha", "url", "checks", "ci"] := by
  obtain ⟨pbs, h1, h2⟩ := get_progress_bars_keys samplePrInfo "abc123" rfl
  rw [h1]
  show Except.ok (pbs.map Pb.key) = _
  rw [h2]
  rfl

/-! ### C4: ordering of render and completion check in the loop -/

/-- Whether the first render-or-check event of a trace is a render: the
formal reading of "rows are built and rendered before the completion
predicate is evaluated" for the tick that starts the trace. -/
def renderBeforeFirstCheck : List LoopEvent → Bool
  | [] => false
  | LoopEvent.renderTick :: _ => true
  | LoopEvent.renderFinal :: _ => true
  | LoopEvent.checkComplete _ :: _ => false
  | _ :: rest => renderBeforeFirstCheck rest

/-- C4 counterexample: on a run whose record is already complete at the
first tick, the loop's first event is the completion check, not a
render — `run_loop` evaluates `is_complete` at the top of the loop body,
before `get_progress_bars` is called, so no frame is rendered before
termination is decided (the single final frame comes after). -/
theorem run_loop_checks_before_render_cex :
    App.run_loop [true]
        = some [LoopEvent.checkComplete true, LoopEvent.renderFinal] ∧
      renderBeforeFirstCheck
        [LoopEvent.checkComplete true, LoopEvent.renderFinal] = false := by
  exact ⟨rfl, rfl⟩

/-- The shape every terminating `run_loop` trace has: each iteration
evaluates the completion predicate first; a false check is followed by
the tick's frame render, the spawned refresh and the sleep; a true
check ends the loop, followed by exactly one final frame render. -/
inductive TickShape : List LoopEvent → Prop
  | done : TickShape [LoopEvent.checkComplete true, LoopEvent.renderFinal]
  | step (rest : List LoopEvent) : TickShape rest →
      TickShape (LoopEvent.checkComplete false :: LoopEvent.renderTick ::
        LoopEvent.spawnUpdate :: LoopEvent.sleepTick :: rest)

/-- C4 amended: in every iteration of the loop the completion predicate
is evaluated first; when it is false the frame is rendered afterwards
in that same tick, and when it is true the loop stops and exactly one
more frame is rendered from the current record — so the termination
decision precedes the tick's render, and a terminating run ends in a
single final frame. -/
theorem run_loop_check_first (flags : List Bool) (evs : List LoopEvent)
    (h : App.run_loop flags = some evs) :
    TickShape evs ∧ evs.count LoopEvent.renderFinal = 1 ∧
      evs.getLast? = some LoopEvent.renderFinal := by
  induction flags generalizing evs with
  | nil => cases h
  | cons c rest ih =>
    cases c with
    | true =>
      have he : evs = [LoopEvent.checkComplete true, LoopEvent.renderFinal] :=
        (Option.some.inj h).symm
      subst he
      exact ⟨TickShape.done, rfl, rfl⟩
    | false =>
      unfold App.run_loop at h
      rw [if_neg (by simp)] at h
      cases hr : App.run_loop rest with
      | none => rw [hr] at h; cases h
      | some evs2 =>
        rw [hr] at h
        have he : evs = LoopEvent.checkComplete false :: LoopEvent.renderTick ::
            LoopEvent.spawnUpdate :: LoopEvent.sleepTick :: evs2 :=
          (Option.some.inj h).symm
        subst he
        obtain ⟨hs, hcount, hlast⟩ := ih evs2 hr
        refine ⟨TickShape.step evs2 hs, ?_, ?_⟩
        · simp [List.count_cons, hcount]
        · show (([LoopEvent.checkComplete false, LoopEvent.renderTick,
            LoopEvent.spawnUpdate, LoopEvent.sleepTick] : List LoopEvent)
              ++ evs2).getLast? = some LoopEvent.renderFinal
          rw [List.getLast?_append_of_ne_nil]
          · exact hlast
          · intro hnil
            rw [hnil] at hlast
            cases hlast

/-- C4 witness: the two-tick run (one incomplete tick, then a complete
one) has the check-first shape with a single trailing final render. -/
theorem run_loop_check_first_witness :
    TickShape [LoopEvent.checkComplete false, LoopEvent.renderTick,
      LoopEvent.spawnUpdate, LoopEvent.sleepTick,
      LoopEvent.checkComplete true, LoopEvent.renderFinal] ∧
    ([LoopEvent.checkComplete false, LoopEvent.renderTick,
      LoopEvent.spawnUpdate, LoopEvent.sleepTick,
      LoopEvent.checkComplete true,
      LoopEvent.renderFinal] : List LoopEvent).count LoopEvent.renderFinal = 1 ∧
    ([LoopEvent.checkComplete false, LoopEvent.renderTick,
      LoopEvent.spawnUpdate, LoopEvent.sleepTick,
      LoopEvent.checkComplete true,
      LoopEvent.renderFinal] : List LoopEvent).getLast?
        = some LoopEvent.renderFinal :=
  run_loop_check_first [false, true] _ rfl

/-! ### C9: refreshes in flight -/

/-- Refresh tasks spawned along a trace; with `completed` of them
finished, `spawnCount evs - completed` refreshes are in flight. -/
def spawnCount (evs : List LoopEvent) : Nat :=
  evs.count LoopEvent.spawnUpdate

/-- The trace of a three-tick run: incomplete, incomplete, complete. -/
def doubleSpawnTrace : List LoopEvent :=
  [LoopEvent.checkComplete false, LoopEvent.renderTick,
   LoopEvent.spawnUpdate, LoopEvent.sleepTick,
   LoopEvent.checkComplete false, LoopEvent.renderTick,
   LoopEvent.spawnUpdate, LoopEvent.sleepTick,
   LoopEvent.checkComplete true, LoopEvent.renderFinal]

/-- C9 counterexample: across two incomplete ticks (150 ms apart) the
loop spawns two refresh tasks.  `run_loop` takes no notion of refresh
completion at all — `tokio::spawn` is called unconditionally on every
incomplete tick — so when the first refresh is still running one tick
later (the fetch is an external network call), a second refresh is
started and two are in flight, refuting "at most one in-flight refresh,
no matter how many ticks elapse". -/
theorem run_loop_double_spawn_cex :
    App.run_loop [false, false, true] = some doubleSpawnTrace ∧
      spawnCount doubleSpawnTrace = 2 := by
  exact ⟨rfl, rfl⟩

/-- C9 amended: the loop spawns one refresh task on every tick on which
the record is not complete — unconditionally, with no single-in-flight
guard — so a terminating run spawns exactly as many refreshes as it has
incomplete ticks, and refreshes outliving a 75 ms tick overlap (they
serialize on the record's mutex but multiple can be outstanding). -/
theorem run_loop_spawns_every_tick (flags : List Bool) (evs : List LoopEvent)
    (h : App.run_loop flags = some evs) :
    spawnCount evs = (flags.takeWhile (fun c => !c)).length := by
  induction flags generalizing evs with
  | nil => cases h
  | cons c rest ih =>
    cases c with
    | true =>
      have he : evs = [LoopEvent.checkComplete true, LoopEvent.renderFinal] :=
        (Option.some.inj h).symm
      subst he
      rfl
    | false =>
      unfold App.run_loop at h
      rw [if_neg (by simp)] at h
      cases hr : App.run_loop rest with
      | none => rw [hr] at h; cases h
      | some evs2 =>
        rw [hr] at h
        have he : evs = LoopEvent.checkComplete false :: LoopEvent.renderTick ::
            LoopEvent.spawnUpdate :: LoopEvent.sleepTick :: evs2 :=
          (Option.some.inj h).symm
        subst he
        have hrec := ih evs2 hr
        simp [spawnCount, List.count_cons] at hrec ⊢
        omega

/-- C9 witness: a run with one incomplete tick spawns one refresh. -/
theorem run_loop_spawns_every_tick_witness :
    spawnCount [LoopEvent.checkComplete false, LoopEvent.renderTick,
      LoopEvent.spawnUpdate, LoopEvent.sleepTick,
      LoopEvent.checkComplete true, LoopEvent.renderFinal] = 1 := by
  have h := run_loop_spawns_every_tick [false, true] _ rfl
  simpa using h

/-! ### C8: the registry is append-only -/

/-- The keys of the registry's map, in insertion order. -/
def Registry.keys (reg : Registry) : List String :=
  reg.rows.map Prod.fst

/-- One `App::pb` call only ever appends to the display order: nothing
is removed or reordered. -/
theorem pb_order_extends (reg : Registry) (args : Pb) :
    ∃ t, (App.pb reg args).order = reg.order ++ t := by
  unfold App.pb
  by_cases h : (reg.rows.lookup args.key).isSome
  · exact ⟨[], by simp [h]⟩
  · exact ⟨[args.key], by simp [h]⟩

/-- One `App::pb` call only ever appends to the key map. -/
theorem pb_keys_extends (reg : Registry) (args : Pb) :
    ∃ t, Registry.keys (App.pb reg args) = Registry.keys reg ++ t := by
  unfold App.pb Registry.keys
  by_cases h : (reg.rows.lookup args.key).isSome
  · refine ⟨[], ?_⟩
    simp only [h, if_true, List.map_map, List.append_nil]
    apply List.map_congr_left
    intro kv _
    by_cases hk : kv.1 = args.key <;> simp [hk]
  · refine ⟨[args.key], ?_⟩
    simp only [h, if_false, List.map_map, List.map_append, Bool.false_eq_true]
    rw [show (Prod.fst ∘ fun kv : String × RowState =>
        if kv.1 = args.key then (kv.1, applyPbArgs kv.2 args) else kv)
        = Prod.fst from ?_]
    · rfl
    · funext kv
      by_cases hk : kv.1 = args.key <;> simp [hk]

/-- A key already present is updated in place: the display order and
the key set are unchanged by the call. -/
theorem pb_existing_key_in_place (reg : Registry) (args : Pb)
    (h : (reg.rows.lookup args.key).isSome) :
    (App.pb reg args).order = reg.order ∧
      Registry.keys (App.pb reg args) = Registry.keys reg := by
  constructor
  · unfold App.pb
    simp [h]
  · unfold App.pb Registry.keys
    simp only [h, if_true, List.map_map]
    apply List.map_congr_left
    intro kv _
    by_cases hk : kv.1 = args.key <;> simp [hk]

/-- C8: the row registry is append-only — over any sequence of render
calls the display order grows only by appends at the end (so existing
rows are never removed or reordered), every key ever created survives,
and a call whose key already exists updates that row in place, leaving
both the display order and the key set untouched. -/
theorem registry_append_only (reg : Registry) (calls : List Pb) :
    (∃ t, (App.render reg calls).order = reg.order ++ t) ∧
    (∃ t, Registry.keys (App.render reg calls) = Registry.keys reg ++ t) ∧
    (∀ args : Pb, (reg.rows.lookup args.key).isSome →
      (App.pb reg args).order = reg.order ∧
        Registry.keys (App.pb reg args) = Registry.keys reg) := by
  refine ⟨?_, ?_, fun args h => pb_existing_key_in_place reg args h⟩
  · induction calls generalizing reg with
    | nil => exact ⟨[], (List.append_nil _).symm⟩
    | cons a l ih =>
      obtain ⟨t1, h1⟩ := pb_order_extends reg a
      obtain ⟨t2, h2⟩ := ih (App.pb reg a)
      refine ⟨t1 ++ t2, ?_⟩
      show (App.render (App.pb reg a) l).order = _
      rw [h2, h1, List.append_assoc]
  · induction calls generalizing reg with
    | nil => exact ⟨[], (List.append_nil _).symm⟩
    | cons a l ih =>
      obtain ⟨t1, h1⟩ := pb_keys_extends reg a
      obtain ⟨t2, h2⟩ := ih (App.pb reg a)
      refine ⟨t1 ++ t2, ?_⟩
      show Registry.keys (App.render (App.pb reg a) l) = _
      rw [h2, h1, List.append_assoc]

/-- C8 witness: starting from a registry holding the row `"header"`,
rendering a frame with a new key appends it (order starts with
`"header"`), and a call with the existing key leaves order and keys
unchanged. -/
theorem registry_append_only_witness :
    (App.render { order := ["header"], rows := [("header", {})] }
        [Pb.new "url"]).order = ["header"] ++ ["url"] ∧
    (App.pb { order := ["header"], rows := [("header", {})] }
        (Pb.new "header")).order = ["header"] := by
  have h := registry_append_only
    { order := ["header"], rows := [("header", {})] } [Pb.new "url"]
  refine ⟨?_, (h.2.2 (Pb.new "header") (by decide)).1⟩
  obtain ⟨t, ht⟩ := h.1
  rw [ht]
  have : t = ["url"] := by
    have := ht.symm
    simpa [App.render, App.pb, Pb.new] using this
  rw [this]

end GitPr
